import Mathlib

/-!
# Verification of the rotation-resilient log-tailing engine (logfile_exporter)

Shallow embedding of `logfile_exporter.py`.  Python strings are Lean
`String`s; Python slicing is character based, so the helpers below work on
the underlying character list.  The filesystem is an association list from
paths to current file contents; an absent entry models a file that does not
exist (so `open` raises IOError and `inotify_add_watch` raises OSError).
Python exceptions that escape a function are modelled with `Except PyError`.
-/

namespace LogfileExporter

/-- A filesystem path, split as `os.path.dirname`/basename so that
`os.path.dirname` is a projection. -/
structure Path where
  dir : String
  base : String
deriving DecidableEq, Repr

/-- `os.path.dirname` (line 196 of the source). -/
def Path.dirname (p : Path) : String := p.dir

/-- Exceptions that escape the engine's functions in the source. -/
inductive PyError where
  | keyError
  | nameError
deriving DecidableEq, Repr

/-- Association-list lookup, modelling Python `dict.__getitem__` /
`dict.get`. -/
def alist_lookup {α β : Type} [DecidableEq α] : List (α × β) → α → Option β
  | [], _ => none
  | (k, v) :: rest, k0 => if k = k0 then some v else alist_lookup rest k0

/-- Association-list insert-or-replace, modelling Python
`dict.__setitem__`. -/
def alist_insert {α β : Type} [DecidableEq α] : List (α × β) → α → β → List (α × β)
  | [], k0, v0 => [(k0, v0)]
  | (k, v) :: rest, k0, v0 =>
      if k = k0 then (k0, v0) :: rest else (k, v) :: alist_insert rest k0 v0

/-- The filesystem: a map from path to the current content of the file at
that path.  Absent key = the file does not exist. -/
abbrev FS := List (Path × String)

/-- Character-based length of a Python string (`len`). -/
def str_len (s : String) : Nat := s.data.length

/-- Character-based slice `s[n:]` of a Python string. -/
def str_drop (s : String) (n : Nat) : String := String.mk (s.data.drop n)

/-- Character-based slice `s[:n]` of a Python string. -/
def str_take (s : String) (n : Nat) : String := String.mk (s.data.take n)

/-- `partial.rindex('\n')` (line 287): index of the last `'\n'`, `none` when
there is none (the source's ValueError branch). -/
def lastNewlineIdx : List Char → Option Nat
  | [] => none
  | c :: rest =>
      match lastNewlineIdx rest with
      | some i => some (i + 1)
      | none => if c = '\n' then some 0 else none

/-- `rindex_newline s` is `s.rindex('\n')` on the string level. -/
def rindex_newline (s : String) : Option Nat := lastNewlineIdx s.data

/-- The line-boundary characters of Python 2 `unicode.splitlines`:
`\n`, `\r`, `\v`, `\f`, FS, GS, RS, NEL, LINE SEPARATOR, PARAGRAPH
SEPARATOR (with `\r\n` counting as a single boundary). -/
def isLineBreak (c : Char) : Bool :=
  c = '\n' || c = '\r' || c = Char.ofNat 0x0B || c = Char.ofNat 0x0C ||
  c = Char.ofNat 0x1C || c = Char.ofNat 0x1D || c = Char.ofNat 0x1E ||
  c = Char.ofNat 0x85 || c = Char.ofNat 0x2028 || c = Char.ofNat 0x2029

/-- Worker for Python's `unicode.splitlines` (keepends=False): `acc` holds
the characters of the current line in reverse; `skipLf` is set right after
a `'\r'` so that an immediately following `'\n'` is absorbed into the same
`"\r\n"` boundary; a trailing boundary does not produce a final empty
line. -/
def splitlines_go : Bool → List Char → List Char → List String
  | _, [], acc => if acc.isEmpty then [] else [String.mk acc.reverse]
  | skipLf, c :: rest, acc =>
      if skipLf && c = '\n' then splitlines_go false rest acc
      else if isLineBreak c then
        String.mk acc.reverse :: splitlines_go (c = '\r') rest []
      else splitlines_go false rest (c :: acc)

/-- Python 2 `unicode.splitlines()` as used on line 294 of the source. -/
def py_splitlines (s : String) : List String := splitlines_go false s.data []

/-- A line handler (`AbstractLineHandler`).  `id` identifies the handler
object; `fails line = true` models `process(line)` raising an exception. -/
structure Handler where
  id : Nat
  fails : String → Bool

/-- Result of `handler.process(line)`: `.error` models an exception
escaping `process`. -/
def Handler.process_result (h : Handler) (line : String) : Except Unit Unit :=
  if h.fails line then Except.error () else Except.ok ()

/-- One observable action of the dispatch loop (lines 301-310):
either a successful `handler.process(line)` call, or a call that raised and
was logged by `handler.logger.exception('Failed to process line ...')`. -/
inductive DispatchEntry where
  | delivered (hid : Nat) (line : String)
  | failedLogged (hid : Nat) (line : String)
deriving DecidableEq, Repr

/-- The (handler, line) pair a dispatch entry was invoked with. -/
def entry_for : DispatchEntry → Nat × String
  | DispatchEntry.delivered i l => (i, l)
  | DispatchEntry.failedLogged i l => (i, l)

/-- The inner `for handler in filestats.handlers` loop with its
try/except (lines 304-310): every handler is invoked; an exception is
caught and logged, never propagated. -/
def dispatch_line (handlers : List Handler) (line : String) : List DispatchEntry :=
  handlers.map fun h =>
    match h.process_result line with
    | Except.ok _ => DispatchEntry.delivered h.id line
    | Except.error _ => DispatchEntry.failedLogged h.id line

/-- The outer `for line in lines` loop (line 301). -/
def dispatch_lines (handlers : List Handler) : List String → List DispatchEntry
  | [] => []
  | l :: rest => dispatch_line handlers l ++ dispatch_lines handlers rest

/-- An open read handle; `pos` is its current character offset
(`handle.tell()`). -/
structure Handle where
  pos : Nat
deriving DecidableEq, Repr

/-- `FileStats` (lines 68-103): per-path tailing state.
`position_in_file` starts out as Python `None` and is otherwise `-1` or the
handle's position; `unprocessed` is the partial-line carry buffer. -/
structure FileStats where
  watchdescriptor : Option Nat
  filehandle : Option Handle
  position_in_file : Option Int
  unprocessed : String
  handlers : List Handler

/-- `FileStats.__init__(handlers=[h])` (lines 71-76). -/
def FileStats.init (h : Handler) : FileStats :=
  { watchdescriptor := none, filehandle := none, position_in_file := none,
    unprocessed := "", handlers := [h] }

/-- The `filehandle` property setter (lines 85-91): stores the handle and
sets `position_in_file` to `-1` (handle absent) or `handle.tell()`. -/
def FileStats.set_filehandle (s : FileStats) (h : Option Handle) : FileStats :=
  match h with
  | none => { s with filehandle := none, position_in_file := some (-1) }
  | some hdl => { s with filehandle := some hdl,
                         position_in_file := some (Int.ofNat hdl.pos) }

/-- `FileStats.disable` (lines 96-103): close the handle (errors
swallowed), drop watch descriptor and handle, clear the carry buffer.
Note it assigns `_filehandle` directly, bypassing the property setter, so
`position_in_file` keeps its old value. -/
def FileStats.disable (s : FileStats) : FileStats :=
  { s with watchdescriptor := none, filehandle := none, unprocessed := "" }

/-- Python 2 comparison `int < None` is `False` (`None` sorts below every
int); `int < some v` is the ordinary comparison.  Used for the truncation
test `curr_size < filestats.position_in_file` (line 278). -/
def int_lt_opt (a : Int) (b : Option Int) : Bool :=
  match b with
  | none => false
  | some v => decide (a < v)

/-- The body of `MyWatcher.process_modify` acting on one `FileStats`
(lines 269-299), given `content`, the current content of the inode the
open handle refers to.  Returns the updated stats and the list of complete
lines to dispatch.  Mirrors the source exactly: truncation test against
`position_in_file`, `read()` from the handle position, `rindex('\n')`,
`splitlines` on `unprocessed + partial[:last_newline]`, carry update, and
finally `position_in_file = handle.tell()`. -/
def process_modify_core (content : String) (stats : FileStats) :
    FileStats × List String :=
  match stats.filehandle with
  | none => (stats, [])
  | some h =>
      -- truncation check (lines 276-282): seek(0), cursor 0, clear carry
      let hs :=
        if int_lt_opt (Int.ofNat (str_len content)) stats.position_in_file then
          (⟨0⟩, { stats with position_in_file := some 0, unprocessed := "" })
        else (h, stats)
      let h := hs.1
      let stats := hs.2
      -- partial = filestats.filehandle.read()  (line 285)
      let part := str_drop content h.pos
      let newpos := max h.pos (str_len content)
      let sl :=
        match rindex_newline part with
        | none =>
            -- ValueError branch (lines 288-292): no newline, hold everything
            ({ stats with unprocessed := stats.unprocessed ++ part },
             ([] : List String))
        | some i =>
            -- lines 293-295
            ({ stats with unprocessed := str_drop part (i + 1) },
             py_splitlines (stats.unprocessed ++ str_take part i))
      let stats := sl.1
      -- filestats.position_in_file = filestats.filehandle.tell()  (line 296)
      let stats := { stats with filehandle := some ⟨newpos⟩,
                                position_in_file := some (Int.ofNat newpos) }
      (stats, sl.2)

/-- `MyWatcher` state (lines 140-175 plus the inotify `Watcher` base
class): `filestats` and `dirstats` are the path registry;
`inotify_file_watches` is the base class's live path-to-watch map for file
watches; `file_watch_installs` and `dir_watch_installs` log every call to
`super().add` (one entry per watch installation), so that "no second watch
was installed" is observable. -/
structure MyWatcher where
  filestats : List (Path × FileStats)
  dirstats : List (String × List Path)
  inotify_file_watches : List Path
  file_watch_installs : List Path
  dir_watch_installs : List String
  next_wd : Nat

/-- `super(MyWatcher, self).add(path, FILE_EVENTS_TO_WATCH)` (line 190):
installing the inotify file watch.  Fails with OSError — modelled as
`none` — when the file does not exist. -/
def super_add_file (fsys : FS) (w : MyWatcher) (p : Path) :
    MyWatcher × Option Nat :=
  match alist_lookup fsys p with
  | none => (w, none)
  | some _ =>
      ({ w with
          inotify_file_watches :=
            if p ∈ w.inotify_file_watches then w.inotify_file_watches
            else w.inotify_file_watches ++ [p],
          file_watch_installs := w.file_watch_installs ++ [p],
          next_wd := w.next_wd + 1 },
       some w.next_wd)

/-- `super(MyWatcher, self).add(dirname, DIR_EVENTS_TO_WATCH)` (line
200): installing the directory watch. -/
def super_add_dir (w : MyWatcher) (d : String) : MyWatcher :=
  { w with dir_watch_installs := w.dir_watch_installs ++ [d],
           next_wd := w.next_wd + 1 }

/-- The inotify base class's `remove_path` (line 249): drop the live watch
for `p`; `none` models `InotifyWatcherException` when `p` was not being
watched. -/
def remove_path (w : MyWatcher) (p : Path) : Option MyWatcher :=
  if p ∈ w.inotify_file_watches then
    some { w with
            inotify_file_watches :=
              w.inotify_file_watches.filter (fun q => q ≠ p) }
  else none

/-- `MyWatcher.reset_filehandle(path, from_beginning_of_file)` (lines
203-226): close any old handle, reopen the file (handle `none` on
IOError, i.e. the file does not exist), seek to the start or the end, and
clear the carry buffer.  The `match ... | none => w` branch is the
`KeyError` of `self.filestats[path]`, unreachable: every caller has
registered the path. -/
def MyWatcher.reset_filehandle (fsys : FS) (w : MyWatcher) (p : Path)
    (from_beginning_of_file : Bool) : MyWatcher :=
  match alist_lookup w.filestats p with
  | none => w
  | some stats =>
      let handle : Option Handle :=
        match alist_lookup fsys p with
        | none => none
        | some content =>
            some ⟨if from_beginning_of_file then 0 else str_len content⟩
      let stats := stats.set_filehandle handle
      let stats := { stats with unprocessed := "" }
      { w with filestats := alist_insert w.filestats p stats }

/-- Second half of `MyWatcher.add` (lines 195-201): record the path under
its containing directory (appending without deduplication, as
`filenames.append` does), installing the directory-level watch the first
time the directory is seen. -/
def MyWatcher.add_dir_part (w : MyWatcher) (p : Path) : MyWatcher :=
  let d := p.dirname
  match alist_lookup w.dirstats d with
  | some names =>
      { w with dirstats := alist_insert w.dirstats d (names ++ [p]) }
  | none =>
      let w := super_add_dir w d
      { w with dirstats := alist_insert w.dirstats d [p] }

/-- `MyWatcher.add(path, from_beginning_of_file)` (lines 184-201):
install the file watch and (re)open the handle when no watch descriptor is
present; then record the path under its directory, installing the
directory watch on first use.  The `| none => w` branch is the source's
`KeyError`, unreachable from the public entry points. -/
def MyWatcher.add (fsys : FS) (w : MyWatcher) (p : Path)
    (from_beginning_of_file : Bool) : MyWatcher :=
  match alist_lookup w.filestats p with
  | none => w
  | some stats =>
      let w :=
        if stats.watchdescriptor.isNone then
          let swd := super_add_file fsys w p
          let w1 := { swd.1 with
                       filestats := alist_insert swd.1.filestats p
                         { stats with watchdescriptor := swd.2 } }
          MyWatcher.reset_filehandle fsys w1 p from_beginning_of_file
        else w
      MyWatcher.add_dir_part w p

/-- `MyWatcher.add_handler(path, handler)` (lines 177-182): append the
handler to the existing `FileStats`, or create a fresh one; then `add`. -/
def MyWatcher.add_handler (fsys : FS) (w : MyWatcher) (p : Path)
    (h : Handler) : MyWatcher :=
  let w :=
    match alist_lookup w.filestats p with
    | some stats =>
        let stats2 := { stats with handlers := stats.handlers ++ [h] }
        { w with filestats := alist_insert w.filestats p stats2 }
    | none =>
        { w with filestats := alist_insert w.filestats p (FileStats.init h) }
  MyWatcher.add fsys w p false

/-- `MyWatcher.process_ignored` (lines 312-325).  Faithful to the source's
control flow: `filestats = self.filestats[event.fullpath]` inside a
`try`, `except KeyError` only logs, and the `finally` block runs
`filestats.disable()` in both cases — in the `KeyError` case the local
`filestats` was never bound, so the `finally` block raises
`NameError` (an `UnboundLocalError`), modelled as `.error .nameError`.
In the bound case: disable, then re-`add` when the path still exists. -/
def MyWatcher.process_ignored (fsys : FS) (w : MyWatcher) (p : Path) :
    Except PyError MyWatcher :=
  match alist_lookup w.filestats p with
  | none => Except.error PyError.nameError
  | some stats =>
      let w := { w with filestats := alist_insert w.filestats p stats.disable }
      if (alist_lookup fsys p).isSome then
        Except.ok (MyWatcher.add fsys w p false)
      else
        Except.ok w

/-- `MyWatcher.process_moved_from` (lines 244-252), with the
`@ignore_untracked` decorator (lines 131-137): untracked paths are ignored;
otherwise `remove_path` drops the inotify watch, and on
`InotifyWatcherException` (we were not watching the file) falls back to
`process_ignored`. -/
def MyWatcher.process_moved_from (fsys : FS) (w : MyWatcher) (p : Path) :
    Except PyError MyWatcher :=
  if (alist_lookup w.filestats p).isNone then Except.ok w
  else
    match remove_path w p with
    | some w1 => Except.ok w1
    | none => MyWatcher.process_ignored fsys w p

/-- `process_delete = process_moved_from` (line 254). -/
def MyWatcher.process_delete : FS → MyWatcher → Path →
    Except PyError MyWatcher :=
  MyWatcher.process_moved_from

/-- `MyWatcher.process_moved_to` (lines 256-260), with
`@ignore_untracked`. -/
def MyWatcher.process_moved_to (fsys : FS) (w : MyWatcher) (p : Path) :
    Except PyError MyWatcher :=
  if (alist_lookup w.filestats p).isNone then Except.ok w
  else Except.ok (MyWatcher.add fsys w p false)

/-- `MyWatcher.process_modify` (lines 269-310), which has no
`@ignore_untracked` decorator: `self.filestats[event.fullpath]` raises
`KeyError` for an unregistered path.  Otherwise run the core read-split
logic and dispatch each complete line to every handler. -/
def MyWatcher.process_modify (fsys : FS) (w : MyWatcher) (p : Path) :
    Except PyError (MyWatcher × List DispatchEntry) :=
  match alist_lookup w.filestats p with
  | none => Except.error PyError.keyError
  | some stats =>
      let content := (alist_lookup fsys p).getD ""
      let res := process_modify_core content stats
      let w := { w with filestats := alist_insert w.filestats p res.1 }
      Except.ok (w, dispatch_lines res.1.handlers res.2)

/-- `MyWatcher.process_create` (lines 262-267), with `@ignore_untracked`:
`add(path, from_beginning_of_file=True)` then `process_modify`. -/
def MyWatcher.process_create (fsys : FS) (w : MyWatcher) (p : Path) :
    Except PyError (MyWatcher × List DispatchEntry) :=
  if (alist_lookup w.filestats p).isNone then Except.ok (w, [])
  else
    let w := MyWatcher.add fsys w p true
    MyWatcher.process_modify fsys w p

/-- The event kinds the engine reacts to (the `process_*` methods looked
up by `process_events`, lines 231-242). -/
inductive EventKind where
  | modify
  | moved_from
  | moved_to
  | create
  | delete
  | ignored
deriving DecidableEq, Repr

/-- A drained filesystem event with its full path. -/
structure Event where
  kind : EventKind
  fullpath : Path
deriving DecidableEq, Repr

/-- Dispatch of one drained event to its `process_*` method
(`process_events`, lines 231-242, with the dynamic `getattr` lookup made
into an explicit match). -/
def MyWatcher.process_event (fsys : FS) (w : MyWatcher) (e : Event) :
    Except PyError (MyWatcher × List DispatchEntry) :=
  match e.kind with
  | EventKind.modify => MyWatcher.process_modify fsys w e.fullpath
  | EventKind.moved_from =>
      (MyWatcher.process_moved_from fsys w e.fullpath).map (fun w => (w, []))
  | EventKind.delete =>
      (MyWatcher.process_delete fsys w e.fullpath).map (fun w => (w, []))
  | EventKind.moved_to =>
      (MyWatcher.process_moved_to fsys w e.fullpath).map (fun w => (w, []))
  | EventKind.create => MyWatcher.process_create fsys w e.fullpath
  | EventKind.ignored =>
      (MyWatcher.process_ignored fsys w e.fullpath).map (fun w => (w, []))

/-- The `while` condition of the event loop in `run_online` (line 382):
`settings.max_polls <= 0 or loopcount < settings.max_polls`. -/
def continue_loop (max_polls : Int) (loopcount : Nat) : Bool :=
  decide (max_polls ≤ 0) || decide ((loopcount : Int) < max_polls)

/-- The event loop performs exactly `n` iterations: the condition holds
for loop counts `0 .. n-1` and fails at `n`. -/
def stops_after_exactly (max_polls : Int) (n : Nat) : Prop :=
  (∀ k : Nat, k < n → continue_loop max_polls k = true) ∧
  continue_loop max_polls n = false

/-- The event loop never exits: the condition holds at every count. -/
def runs_forever (max_polls : Int) : Prop :=
  ∀ k : Nat, continue_loop max_polls k = true

/-! ## Concrete fixtures

A small registered world used to evaluate the engine at concrete inputs:
one handler tailing `/var/log/syslog`, attached at offset 6 of the
six-character file `"hello\n"`. -/

/-- A recording handler whose `process` never raises. -/
def hRec : Handler := ⟨0, fun _ => false⟩

/-- A second handler that never raises. -/
def hTwo : Handler := ⟨1, fun _ => false⟩

/-- A handler whose `process` raises exactly on the line `"kaboom"`. -/
def hBad : Handler := ⟨7, fun l => decide (l = "kaboom")⟩

def pSys : Path := ⟨"/var/log", "syslog"⟩

def pOther : Path := ⟨"/var/log", "messages"⟩

/-- The tailing state of `pSys` after registration on an existing
six-character file: watch 0 installed, handle open at end-of-file. -/
def statsSys : FileStats :=
  { watchdescriptor := some 0, filehandle := some ⟨6⟩,
    position_in_file := some 6, unprocessed := "", handlers := [hRec] }

/-- A watcher with `pSys` registered and attached. -/
def wReg : MyWatcher :=
  { filestats := [(pSys, statsSys)], dirstats := [("/var/log", [pSys])],
    inotify_file_watches := [pSys], file_watch_installs := [pSys],
    dir_watch_installs := ["/var/log"], next_wd := 1 }

/-- The filesystem in which `pSys` holds `"hello\n"`. -/
def fsReg : FS := [(pSys, "hello\n")]

/-- The per-`FileStats` invariant the code actually maintains: when a
handle is open the recorded cursor equals the handle's position (hence is
nonnegative); when the handle is absent the carry buffer is empty.  (The
cursor may keep a stale value after a detach: `FileStats.disable` bypasses
the `filehandle` property setter.) -/
def FileStats.cursor_inv (s : FileStats) : Prop :=
  match s.filehandle with
  | some hdl =>
      s.position_in_file = some (Int.ofNat hdl.pos) ∧ 0 ≤ Int.ofNat hdl.pos
  | none => s.unprocessed = ""

/-- `cursor_inv` for every registered path. -/
def registry_inv (l : List (Path × FileStats)) : Prop :=
  ∀ p s, alist_lookup l p = some s → s.cursor_inv

/-! ## Supporting lemmas -/

theorem alist_lookup_insert_self {α β : Type} [DecidableEq α]
    (l : List (α × β)) (k : α) (v : β) :
    alist_lookup (alist_insert l k v) k = some v := by
  induction l with
  | nil => simp [alist_insert, alist_lookup]
  | cons kv rest ih =>
      obtain ⟨k1, v1⟩ := kv
      by_cases hk : k1 = k
      · simp [alist_insert, alist_lookup, hk]
      · simp [alist_insert, alist_lookup, hk, ih]

theorem alist_lookup_insert_or {α β : Type} [DecidableEq α]
    (l : List (α × β)) (k q : α) (v t : β)
    (h : alist_lookup (alist_insert l k v) q = some t) :
    t = v ∨ alist_lookup l q = some t := by
  induction l with
  | nil =>
      simp only [alist_insert, alist_lookup] at h
      by_cases hk : k = q
      · simp [hk] at h
        exact Or.inl h.symm
      · simp [hk] at h
  | cons kv rest ih =>
      obtain ⟨k1, v1⟩ := kv
      by_cases hk : k1 = k
      · simp only [alist_insert, hk, if_pos rfl, alist_lookup] at h
        by_cases hq : k = q
        · simp [hq] at h
          exact Or.inl h.symm
        · simp [hq, alist_lookup, hk] at h ⊢
          exact Or.inr h
      · simp only [alist_insert, hk, if_neg hk, alist_lookup] at h
        by_cases hq : k1 = q
        · right
          simp only [alist_lookup, if_pos hq] at h ⊢
          exact h
        · simp only [alist_lookup, if_neg hq] at h ⊢
          exact ih h

/-! ## Claim theorems -/

/-- C9 (counterexample).  The claim says every integer N other than -1
stops the loop after exactly N iterations; `--max-polls 0` refutes it:
`run_online`'s loop condition `max_polls <= 0 or loopcount < max_polls`
(line 382) is true at loop count 0 when `max_polls = 0`, so the loop does
not stop after 0 iterations — it runs forever. -/
theorem max_polls_zero_forever :
    ((0 : Int) ≠ -1) ∧ ¬ stops_after_exactly 0 0 ∧ runs_forever 0 := by
  refine ⟨by decide, ?_, ?_⟩
  · intro h
    have h0 : continue_loop 0 0 = false := h.2
    simp [continue_loop] at h0
  · intro k
    simp [continue_loop]

/-- C9 (amended).  The event loop of `run_online` (lines 381-395) stops
after exactly N iterations when N is positive, and runs forever for every
N ≤ 0 (not only -1). -/
theorem max_polls_semantics (N : Int) :
    (0 < N → stops_after_exactly N N.toNat) ∧ (N ≤ 0 → runs_forever N) := by
  constructor
  · intro hN
    constructor
    · intro k hk
      simp only [continue_loop, Bool.or_eq_true, decide_eq_true_eq]
      omega
    · simp only [continue_loop, Bool.or_eq_false_iff, decide_eq_false_iff_not]
      omega
  · intro hN k
    simp only [continue_loop, Bool.or_eq_true, decide_eq_true_eq]
    omega

/-- C9 (witness): `--max-polls 3` performs exactly 3 iterations and
`--max-polls -1` runs forever. -/
theorem max_polls_semantics_witness :
    stops_after_exactly 3 3 ∧ runs_forever (-1) :=
  ⟨(max_polls_semantics 3).1 (by decide),
   (max_polls_semantics (-1)).2 (by decide)⟩

/-- C4 (code_bug).  An event for a path not in the registry: the kinds
whose handlers carry `@ignore_untracked` (MOVED_OUT, MOVED_TO, CREATE,
DELETED) are indeed ignored silently with the watcher unchanged, but an
IGNORED event for an untracked path raises `NameError` — the `finally`
block of `process_ignored` (line 319) calls `filestats.disable()` although
the `except KeyError` path never bound `filestats` — and a MODIFY event
for an untracked path raises `KeyError` (line 270, no decorator).  Both
errors escape the engine, contradicting the claim's "no error escapes". -/
theorem untracked_event_crash :
    MyWatcher.process_event fsReg wReg ⟨EventKind.ignored, pOther⟩
        = Except.error PyError.nameError
  ∧ MyWatcher.process_event fsReg wReg ⟨EventKind.modify, pOther⟩
        = Except.error PyError.keyError
  ∧ MyWatcher.process_event fsReg wReg ⟨EventKind.moved_from, pOther⟩
        = Except.ok (wReg, [])
  ∧ MyWatcher.process_event fsReg wReg ⟨EventKind.moved_to, pOther⟩
        = Except.ok (wReg, [])
  ∧ MyWatcher.process_event fsReg wReg ⟨EventKind.create, pOther⟩
        = Except.ok (wReg, [])
  ∧ MyWatcher.process_event fsReg wReg ⟨EventKind.delete, pOther⟩
        = Except.ok (wReg, []) :=
  ⟨rfl, rfl, rfl, rfl, rfl, rfl⟩

/-- When the path's `FileStats` already has a watch descriptor, `add`
leaves the file registry, the install log and the live watches unchanged
(lines 188-193 are skipped; the directory branch touches only
`dirstats`/`dir_watch_installs`). -/
theorem add_no_install (fsys : FS) (w : MyWatcher) (p : Path) (b : Bool)
    (stats : FileStats)
    (hlook : alist_lookup w.filestats p = some stats)
    (hwd : stats.watchdescriptor.isNone = false) :
    (MyWatcher.add fsys w p b).filestats = w.filestats
  ∧ (MyWatcher.add fsys w p b).file_watch_installs = w.file_watch_installs
  ∧ (MyWatcher.add fsys w p b).inotify_file_watches
        = w.inotify_file_watches := by
  unfold MyWatcher.add
  rw [hlook]
  dsimp only
  rw [hwd]
  simp only [Bool.false_eq_true, if_false]
  unfold MyWatcher.add_dir_part
  dsimp only
  cases hd : alist_lookup w.dirstats p.dirname <;>
    exact ⟨rfl, rfl, rfl⟩

/-- C8.  Registering a second handler for a path whose file-level watch is
already installed appends the handler to the path's handler list and does
not call the watch-install primitive again (`add_handler`, lines 177-182:
the `try` branch appends; `add` skips installation because
`watchdescriptor` is set). -/
theorem second_handler_no_second_watch
    (fsys : FS) (w : MyWatcher) (p : Path) (stats : FileStats) (wd : Nat)
    (h2 : Handler)
    (hlook : alist_lookup w.filestats p = some stats)
    (hwd : stats.watchdescriptor = some wd) :
    alist_lookup (MyWatcher.add_handler fsys w p h2).filestats p
        = some { stats with handlers := stats.handlers ++ [h2] }
  ∧ (MyWatcher.add_handler fsys w p h2).file_watch_installs
        = w.file_watch_installs := by
  unfold MyWatcher.add_handler
  rw [hlook]
  dsimp only
  have hl1 : alist_lookup
      (alist_insert w.filestats p { stats with handlers := stats.handlers ++ [h2] })
      p = some { stats with handlers := stats.handlers ++ [h2] } :=
    alist_lookup_insert_self _ _ _
  have hwd2 : ({ stats with handlers := stats.handlers ++ [h2] } :
      FileStats).watchdescriptor.isNone = false := by
    simp [hwd]
  obtain ⟨hf, hi, _⟩ := add_no_install fsys
    { w with filestats := alist_insert w.filestats p { stats with handlers := stats.handlers ++ [h2] } }
    p false { stats with handlers := stats.handlers ++ [h2] } hl1 hwd2
  exact ⟨by rw [hf]; exact hl1, by rw [hi]⟩

/-- C8 (witness): a concrete second registration on the already-watched
`pSys` appends `hTwo` and the install log is untouched. -/
theorem second_handler_no_second_watch_witness :
    alist_lookup (MyWatcher.add_handler fsReg wReg pSys hTwo).filestats pSys
        = some { statsSys with handlers := statsSys.handlers ++ [hTwo] }
  ∧ (MyWatcher.add_handler fsReg wReg pSys hTwo).file_watch_installs
        = wReg.file_watch_installs :=
  second_handler_no_second_watch fsReg wReg pSys statsSys 0 hTwo rfl rfl

/-- C10.  Registering an additional handler for an already-watched path
changes the path's `FileStats` only by appending the handler at the end
(no deduplication): the resulting entry is exactly the old record with
`handlers ++ [h2]`, so watch descriptor, handle, cursor and carry buffer
are untouched. -/
theorem add_handler_frame
    (fsys : FS) (w : MyWatcher) (p : Path) (stats : FileStats) (wd : Nat)
    (h2 : Handler)
    (hlook : alist_lookup w.filestats p = some stats)
    (hwd : stats.watchdescriptor = some wd) :
    alist_lookup (MyWatcher.add_handler fsys w p h2).filestats p
        = some { stats with handlers := stats.handlers ++ [h2] } := by
  unfold MyWatcher.add_handler
  rw [hlook]
  dsimp only
  have hl1 : alist_lookup
      (alist_insert w.filestats p { stats with handlers := stats.handlers ++ [h2] })
      p = some { stats with handlers := stats.handlers ++ [h2] } :=
    alist_lookup_insert_self _ _ _
  have hwd2 : ({ stats with handlers := stats.handlers ++ [h2] } :
      FileStats).watchdescriptor.isNone = false := by
    simp [hwd]
  obtain ⟨hf, _, _⟩ := add_no_install fsys
    { w with filestats := alist_insert w.filestats p { stats with handlers := stats.handlers ++ [h2] } }
    p false { stats with handlers := stats.handlers ++ [h2] } hl1 hwd2
  rw [hf]
  exact hl1

/-- C10 (witness): re-registering the very same handler object appends a
duplicate and leaves all other fields of the `FileStats` unchanged. -/
theorem add_handler_frame_witness :
    alist_lookup (MyWatcher.add_handler fsReg wReg pSys hRec).filestats pSys
        = some { statsSys with handlers := statsSys.handlers ++ [hRec] } :=
  add_handler_frame fsReg wReg pSys statsSys 0 hRec rfl rfl

theorem entry_for_dispatch_line (hs : List Handler) (l : String) :
    (dispatch_line hs l).map entry_for = hs.map (fun h => (h.id, l)) := by
  induction hs with
  | nil => rfl
  | cons h rest ih =>
      simp only [dispatch_line, List.map_cons] at ih ⊢
      rw [ih]
      by_cases hf : h.fails l <;> simp [Handler.process_result, hf, entry_for]

theorem mem_dispatch_lines_of_mem (hs : List Handler) (ls : List String)
    (l : String) (hl : l ∈ ls) (e : DispatchEntry)
    (he : e ∈ dispatch_line hs l) : e ∈ dispatch_lines hs ls := by
  induction ls with
  | nil => cases hl
  | cons x rest ih =>
      show e ∈ dispatch_line hs x ++ dispatch_lines hs rest
      rcases List.mem_cons.mp hl with h | h
      · subst h
        exact List.mem_append_left _ he
      · exact List.mem_append_right _ (ih h)

/-- Any handler of the list is invoked on any line of the read. -/
theorem invoked_in_dispatch_lines (hs : List Handler) (ls : List String)
    (l : String) (h : Handler) (hl : l ∈ ls) (hh : h ∈ hs) :
    (h.id, l) ∈ (dispatch_lines hs ls).map entry_for := by
  have hline : (h.id, l) ∈ (dispatch_line hs l).map entry_for := by
    rw [entry_for_dispatch_line]
    exact List.mem_map.mpr ⟨h, hh, rfl⟩
  obtain ⟨e, he, hef⟩ := List.mem_map.mp hline
  exact List.mem_map.mpr ⟨e, mem_dispatch_lines_of_mem hs ls l hl e he, hef⟩

/-- C5.  If a handler raises on line `lk` of a read, the failure is logged
with the offending line, every handler of the path is still invoked on
`lk`, and every handler is still invoked on every later line of the same
read (the `try`/`except` of lines 305-310 swallows the exception and both
loops continue). -/
theorem handler_failure_isolation
    (handlers : List Handler) (hf : Handler) (pre post : List String)
    (lk : String) (hmem : hf ∈ handlers) (hfail : hf.fails lk = true) :
    DispatchEntry.failedLogged hf.id lk
        ∈ dispatch_lines handlers (pre ++ lk :: post)
  ∧ (∀ h ∈ handlers,
        (h.id, lk) ∈ (dispatch_lines handlers (pre ++ lk :: post)).map entry_for)
  ∧ (∀ l ∈ post, ∀ h ∈ handlers,
        (h.id, l) ∈ (dispatch_lines handlers (pre ++ lk :: post)).map entry_for) := by
  have hmid : lk ∈ pre ++ lk :: post := by simp
  refine ⟨?_, ?_, ?_⟩
  · apply mem_dispatch_lines_of_mem _ _ _ hmid
    exact List.mem_map.mpr ⟨hf, hmem, by simp [Handler.process_result, hfail]⟩
  · intro h hh
    exact invoked_in_dispatch_lines _ _ _ _ hmid hh
  · intro l hl h hh
    exact invoked_in_dispatch_lines _ _ _ _ (by simp [hl]) hh

/-- C5 (witness): with handlers `[hRec, hBad]` and the read
`["kaboom", "next"]`, `hBad` raises on `"kaboom"` and is logged, `hRec`
still receives `"kaboom"`, and `hBad` still receives `"next"`. -/
theorem handler_failure_isolation_witness :
    DispatchEntry.failedLogged hBad.id "kaboom"
        ∈ dispatch_lines [hRec, hBad] ([] ++ "kaboom" :: ["next"])
  ∧ (hRec.id, "kaboom")
        ∈ (dispatch_lines [hRec, hBad] ([] ++ "kaboom" :: ["next"])).map entry_for
  ∧ (hBad.id, "next")
        ∈ (dispatch_lines [hRec, hBad] ([] ++ "kaboom" :: ["next"])).map entry_for := by
  obtain ⟨h1, h2, h3⟩ := handler_failure_isolation [hRec, hBad] hBad [] ["next"]
    "kaboom" (List.mem_cons_of_mem _ (List.mem_cons_self _ _)) (by decide)
  exact ⟨h1, h2 hRec (List.mem_cons_self _ _),
    h3 "next" (List.mem_cons_self _ _) hBad
      (List.mem_cons_of_mem _ (List.mem_cons_self _ _))⟩

/-- C6.  A MOVED_OUT event for an attached registered path removes the
file-level inotify watch (`process_moved_from` calls `remove_path`, line
249).  Removing an inotify watch makes the kernel deliver an IN_IGNORED
event for the same path, which `process_ignored` handles by
`filestats.disable()`: the handle is closed, the carry buffer cleared and
the watch descriptor dropped; the path (now absent from the filesystem) is
not re-added, so it ends Detached.  DELETED is handled identically:
`process_delete = process_moved_from` (line 254) definitionally. -/
theorem moved_out_detaches
    (fsys : FS) (w : MyWatcher) (p : Path) (stats : FileStats) (hdl : Handle)
    (hlook : alist_lookup w.filestats p = some stats)
    (_hatt : stats.filehandle = some hdl)
    (hwatch : p ∈ w.inotify_file_watches)
    (hgone : alist_lookup fsys p = none) :
    MyWatcher.process_moved_from fsys w p
        = Except.ok { w with inotify_file_watches := w.inotify_file_watches.filter (fun q => q ≠ p) }
  ∧ p ∉ w.inotify_file_watches.filter (fun q => q ≠ p)
  ∧ MyWatcher.process_ignored fsys
        { w with inotify_file_watches := w.inotify_file_watches.filter (fun q => q ≠ p) } p
        = Except.ok { w with inotify_file_watches := w.inotify_file_watches.filter (fun q => q ≠ p), filestats := alist_insert w.filestats p stats.disable }
  ∧ stats.disable.filehandle = none
  ∧ stats.disable.unprocessed = ""
  ∧ stats.disable.watchdescriptor = none
  ∧ MyWatcher.process_delete = MyWatcher.process_moved_from := by
  refine ⟨?_, ?_, ?_, rfl, rfl, rfl, rfl⟩
  · unfold MyWatcher.process_moved_from remove_path
    simp [hlook, hwatch]
  · simp [List.mem_filter]
  · unfold MyWatcher.process_ignored
    simp [hlook, hgone]

/-- C6 (witness): rotating `/var/log/syslog` out of its directory on the
concrete attached watcher. -/
theorem moved_out_detaches_witness :
    MyWatcher.process_moved_from [] wReg pSys
        = Except.ok { wReg with inotify_file_watches := wReg.inotify_file_watches.filter (fun q => q ≠ pSys) }
  ∧ pSys ∉ wReg.inotify_file_watches.filter (fun q => q ≠ pSys)
  ∧ MyWatcher.process_ignored []
        { wReg with inotify_file_watches := wReg.inotify_file_watches.filter (fun q => q ≠ pSys) } pSys
        = Except.ok { wReg with inotify_file_watches := wReg.inotify_file_watches.filter (fun q => q ≠ pSys), filestats := alist_insert wReg.filestats pSys statsSys.disable }
  ∧ statsSys.disable.filehandle = none
  ∧ statsSys.disable.unprocessed = ""
  ∧ statsSys.disable.watchdescriptor = none
  ∧ MyWatcher.process_delete = MyWatcher.process_moved_from :=
  moved_out_detaches [] wReg pSys statsSys ⟨6⟩ rfl rfl (by decide) rfl

theorem registry_inv_insert (l : List (Path × FileStats)) (p : Path)
    (s : FileStats) (hl : registry_inv l) (hs : s.cursor_inv) :
    registry_inv (alist_insert l p s) := by
  intro q t ht
  rcases alist_lookup_insert_or l p q s t ht with h | h
  · subst h
    exact hs
  · exact hl q t h

theorem cursor_inv_update_watchdescriptor (s : FileStats) (wd : Option Nat)
    (h : s.cursor_inv) : ({ s with watchdescriptor := wd }).cursor_inv := by
  cases s with
  | mk a b c d e => exact h

theorem cursor_inv_update_handlers (s : FileStats) (hs : List Handler)
    (h : s.cursor_inv) : ({ s with handlers := hs }).cursor_inv := by
  cases s with
  | mk a b c d e =>
      unfold FileStats.cursor_inv at h ⊢
      cases b <;> exact h

theorem cursor_inv_disable (s : FileStats) : s.disable.cursor_inv := by
  cases s with
  | mk a b c d e => simp [FileStats.disable, FileStats.cursor_inv]

theorem cursor_inv_init (h : Handler) : (FileStats.init h).cursor_inv := by
  simp [FileStats.init, FileStats.cursor_inv]

theorem cursor_inv_set_filehandle_clear (s : FileStats) (h : Option Handle) :
    ({ s.set_filehandle h with unprocessed := "" }).cursor_inv := by
  cases h with
  | none => exact rfl
  | some hdl => exact ⟨rfl, Int.ofNat_nonneg _⟩

theorem cursor_inv_core (content : String) (s : FileStats)
    (hs : s.cursor_inv) : (process_modify_core content s).1.cursor_inv := by
  unfold process_modify_core
  cases hfh : s.filehandle with
  | none => exact hs
  | some hdl =>
      dsimp only
      exact ⟨rfl, Int.ofNat_nonneg _⟩

theorem super_add_file_filestats (fsys : FS) (w : MyWatcher) (p : Path) :
    (super_add_file fsys w p).1.filestats = w.filestats := by
  unfold super_add_file
  cases alist_lookup fsys p <;> rfl

theorem registry_inv_reset (fsys : FS) (w : MyWatcher) (p : Path) (b : Bool)
    (h : registry_inv w.filestats) :
    registry_inv (MyWatcher.reset_filehandle fsys w p b).filestats := by
  unfold MyWatcher.reset_filehandle
  cases hl : alist_lookup w.filestats p with
  | none => exact h
  | some stats =>
      dsimp only
      exact registry_inv_insert _ _ _ h (cursor_inv_set_filehandle_clear _ _)

theorem add_dir_part_filestats (w : MyWatcher) (p : Path) :
    (MyWatcher.add_dir_part w p).filestats = w.filestats := by
  unfold MyWatcher.add_dir_part
  dsimp only
  cases alist_lookup w.dirstats p.dirname <;> rfl

theorem registry_inv_add (fsys : FS) (w : MyWatcher) (p : Path) (b : Bool)
    (h : registry_inv w.filestats) :
    registry_inv (MyWatcher.add fsys w p b).filestats := by
  unfold MyWatcher.add
  cases hl : alist_lookup w.filestats p with
  | none => exact h
  | some stats =>
      dsimp only
      rw [add_dir_part_filestats]
      by_cases hwd : stats.watchdescriptor.isNone
      · rw [if_pos hwd]
        apply registry_inv_reset
        rw [super_add_file_filestats]
        exact registry_inv_insert _ _ _ h
          (cursor_inv_update_watchdescriptor _ _ (h p stats hl))
      · rw [if_neg hwd]
        exact h

theorem registry_inv_add_handler (fsys : FS) (w : MyWatcher) (p : Path)
    (hh : Handler) (h : registry_inv w.filestats) :
    registry_inv (MyWatcher.add_handler fsys w p hh).filestats := by
  unfold MyWatcher.add_handler
  cases hl : alist_lookup w.filestats p with
  | some stats =>
      dsimp only
      apply registry_inv_add
      exact registry_inv_insert _ _ _ h
        (cursor_inv_update_handlers _ _ (h p stats hl))
  | none =>
      dsimp only
      apply registry_inv_add
      exact registry_inv_insert _ _ _ h (cursor_inv_init hh)

theorem registry_inv_modify (fsys : FS) (w : MyWatcher) (p : Path)
    (w2 : MyWatcher) (log : List DispatchEntry)
    (h : registry_inv w.filestats)
    (hok : MyWatcher.process_modify fsys w p = Except.ok (w2, log)) :
    registry_inv w2.filestats := by
  unfold MyWatcher.process_modify at hok
  cases hl : alist_lookup w.filestats p with
  | none =>
      rw [hl] at hok
      cases hok
  | some stats =>
      rw [hl] at hok
      dsimp only at hok
      simp only [Except.ok.injEq, Prod.mk.injEq] at hok
      obtain ⟨hw2, _⟩ := hok
      subst hw2
      exact registry_inv_insert _ _ _ h (cursor_inv_core _ _ (h p stats hl))

theorem registry_inv_ignored (fsys : FS) (w : MyWatcher) (p : Path)
    (w2 : MyWatcher) (h : registry_inv w.filestats)
    (hok : MyWatcher.process_ignored fsys w p = Except.ok w2) :
    registry_inv w2.filestats := by
  unfold MyWatcher.process_ignored at hok
  cases hl : alist_lookup w.filestats p with
  | none =>
      rw [hl] at hok
      cases hok
  | some stats =>
      rw [hl] at hok
      dsimp only at hok
      have hin : registry_inv (alist_insert w.filestats p stats.disable) :=
        registry_inv_insert _ _ _ h (cursor_inv_disable stats)
      by_cases hex : (alist_lookup fsys p).isSome
      · rw [if_pos hex] at hok
        simp only [Except.ok.injEq] at hok
        subst hok
        exact registry_inv_add _ _ _ _ hin
      · rw [if_neg hex] at hok
        simp only [Except.ok.injEq] at hok
        subst hok
        exact hin

theorem remove_path_filestats (w : MyWatcher) (p : Path) (w1 : MyWatcher)
    (hr : remove_path w p = some w1) : w1.filestats = w.filestats := by
  unfold remove_path at hr
  by_cases hm : p ∈ w.inotify_file_watches
  · rw [if_pos hm] at hr
    cases hr
    rfl
  · rw [if_neg hm] at hr
    cases hr

theorem registry_inv_moved_from (fsys : FS) (w : MyWatcher) (p : Path)
    (w2 : MyWatcher) (h : registry_inv w.filestats)
    (hok : MyWatcher.process_moved_from fsys w p = Except.ok w2) :
    registry_inv w2.filestats := by
  unfold MyWatcher.process_moved_from at hok
  by_cases hl : (alist_lookup w.filestats p).isNone
  · rw [if_pos hl] at hok
    simp only [Except.ok.injEq] at hok
    subst hok
    exact h
  · rw [if_neg hl] at hok
    cases hr : remove_path w p with
    | some w1 =>
        rw [hr] at hok
        simp only [Except.ok.injEq] at hok
        subst hok
        rw [remove_path_filestats w p w1 hr]
        exact h
    | none =>
        rw [hr] at hok
        exact registry_inv_ignored fsys w p w2 h hok

theorem registry_inv_moved_to (fsys : FS) (w : MyWatcher) (p : Path)
    (w2 : MyWatcher) (h : registry_inv w.filestats)
    (hok : MyWatcher.process_moved_to fsys w p = Except.ok w2) :
    registry_inv w2.filestats := by
  unfold MyWatcher.process_moved_to at hok
  by_cases hl : (alist_lookup w.filestats p).isNone
  · rw [if_pos hl] at hok
    simp only [Except.ok.injEq] at hok
    subst hok
    exact h
  · rw [if_neg hl] at hok
    simp only [Except.ok.injEq] at hok
    subst hok
    exact registry_inv_add _ _ _ _ h

theorem registry_inv_create (fsys : FS) (w : MyWatcher) (p : Path)
    (w2 : MyWatcher) (log : List DispatchEntry)
    (h : registry_inv w.filestats)
    (hok : MyWatcher.process_create fsys w p = Except.ok (w2, log)) :
    registry_inv w2.filestats := by
  unfold MyWatcher.process_create at hok
  by_cases hl : (alist_lookup w.filestats p).isNone
  · rw [if_pos hl] at hok
    simp only [Except.ok.injEq, Prod.mk.injEq] at hok
    obtain ⟨hw2, _⟩ := hok
    subst hw2
    exact h
  · rw [if_neg hl] at hok
    dsimp only at hok
    exact registry_inv_modify _ _ _ _ _ (registry_inv_add _ _ _ _ h) hok

/-- C7 (counterexample).  After processing an IGNORED event for the
registered, attached path `pSys` whose file has disappeared, the handle is
absent but the cursor still reads 6 (the stale pre-detach position), not
-1: `FileStats.disable` assigns `_filehandle` directly and bypasses the
property setter that would reset the cursor to -1. -/
theorem detached_cursor_stale :
    ((MyWatcher.process_event [] wReg ⟨EventKind.ignored, pSys⟩).toOption.bind
        (fun r => alist_lookup r.1.filestats pSys)).map
        (fun s => (s.filehandle, s.position_in_file))
      = some (none, some 6)
  ∧ some (6 : Int) ≠ some (-1 : Int) :=
  ⟨rfl, by decide⟩

/-- C7 (amended).  The invariant the code maintains after registration and
after every successfully processed event: handle present ⇒ the cursor
equals the handle's position and is ≥ 0; handle absent ⇒ the carry buffer
is empty.  (The original claim's "handle absent ⇒ cursor = −1" fails, see
the counterexample: a detach leaves the cursor stale.) -/
theorem filestate_invariant_preserved :
    (∀ (fsys : FS) (w : MyWatcher) (p : Path) (h : Handler),
        registry_inv w.filestats →
        registry_inv (MyWatcher.add_handler fsys w p h).filestats)
  ∧ (∀ (fsys : FS) (w : MyWatcher) (e : Event) (w2 : MyWatcher)
        (log : List DispatchEntry),
        registry_inv w.filestats →
        MyWatcher.process_event fsys w e = Except.ok (w2, log) →
        registry_inv w2.filestats) := by
  constructor
  · intro fsys w p h hinv
    exact registry_inv_add_handler fsys w p h hinv
  · intro fsys w e w2 log hinv hok
    unfold MyWatcher.process_event at hok
    cases e with
    | mk kind p =>
        cases kind with
        | modify => exact registry_inv_modify fsys w p w2 log hinv hok
        | moved_from =>
            cases hx : MyWatcher.process_moved_from fsys w p with
            | error er =>
                rw [hx] at hok
                cases hok
            | ok w1 =>
                rw [hx] at hok
                simp only [Except.map, Except.ok.injEq, Prod.mk.injEq] at hok
                obtain ⟨hw2, _⟩ := hok
                subst hw2
                exact registry_inv_moved_from fsys w p w1 hinv hx
        | delete =>
            cases hx : MyWatcher.process_delete fsys w p with
            | error er =>
                rw [hx] at hok
                cases hok
            | ok w1 =>
                rw [hx] at hok
                simp only [Except.map, Except.ok.injEq, Prod.mk.injEq] at hok
                obtain ⟨hw2, _⟩ := hok
                subst hw2
                exact registry_inv_moved_from fsys w p w1 hinv hx
        | moved_to =>
            cases hx : MyWatcher.process_moved_to fsys w p with
            | error er =>
                rw [hx] at hok
                cases hok
            | ok w1 =>
                rw [hx] at hok
                simp only [Except.map, Except.ok.injEq, Prod.mk.injEq] at hok
                obtain ⟨hw2, _⟩ := hok
                subst hw2
                exact registry_inv_moved_to fsys w p w1 hinv hx
        | create => exact registry_inv_create fsys w p w2 log hinv hok
        | ignored =>
            cases hx : MyWatcher.process_ignored fsys w p with
            | error er =>
                rw [hx] at hok
                cases hok
            | ok w1 =>
                rw [hx] at hok
                simp only [Except.map, Except.ok.injEq, Prod.mk.injEq] at hok
                obtain ⟨hw2, _⟩ := hok
                subst hw2
                exact registry_inv_ignored fsys w p w1 hinv hx

/-- C7 (witness): registering a handler on the empty watcher yields a
registry satisfying the (amended) invariant. -/
theorem filestate_invariant_preserved_witness :
    registry_inv (MyWatcher.add_handler fsReg ⟨[], [], [], [], [], 0⟩ pSys
      hRec).filestats :=
  filestate_invariant_preserved.1 fsReg ⟨[], [], [], [], [], 0⟩ pSys hRec
    (by intro p s h; simp [alist_lookup] at h)

/-- C1.  Bytes after the last newline stay in the carry buffer and no
incomplete line is ever emitted: (general part) when the chunk read from
the handle contains no `'\n'`, no lines are emitted and the chunk is
appended to the carry; (scenario) a write of `"abc"` followed by a write
of `"def\n"` emits exactly the single line `"abcdef"` — never `"abc"` nor
`"def"` — and dispatch invokes every handler on `"abcdef"` exactly once. -/
theorem last_line_hold :
    (∀ (stats : FileStats) (hdl : Handle) (content : String) (p0 : Int),
       stats.filehandle = some hdl →
       stats.position_in_file = some p0 →
       ¬ Int.ofNat (str_len content) < p0 →
       rindex_newline (str_drop content hdl.pos) = none →
       process_modify_core content stats
         = ({ stats with
               unprocessed := stats.unprocessed ++ str_drop content hdl.pos,
               filehandle := some ⟨max hdl.pos (str_len content)⟩,
               position_in_file := some (Int.ofNat (max hdl.pos (str_len content))) },
            []))
  ∧ (∀ (wd : Option Nat) (hs : List Handler),
       process_modify_core "abc" ⟨wd, some ⟨0⟩, some 0, "", hs⟩
         = (⟨wd, some ⟨3⟩, some 3, "abc", hs⟩, [])
     ∧ process_modify_core "abcdef\n" ⟨wd, some ⟨3⟩, some 3, "abc", hs⟩
         = (⟨wd, some ⟨7⟩, some 7, "", hs⟩, ["abcdef"])
     ∧ (dispatch_lines hs ["abcdef"]).map entry_for
         = hs.map (fun h => (h.id, "abcdef"))) := by
  constructor
  · intro stats hdl content p0 hh hp hnt hnl
    unfold process_modify_core
    rw [hh, hp]
    dsimp only
    have hc : int_lt_opt (Int.ofNat (str_len content)) (some p0) = false :=
      decide_eq_false hnt
    simp only [hc, Bool.false_eq_true, if_false]
    rw [hnl]
  · intro wd hs
    refine ⟨rfl, rfl, ?_⟩
    simp [dispatch_lines, entry_for_dispatch_line]

/-- C1 (witness): a chunk `"yz"` with no newline read at offset 1 of
`"xyz"` on top of carry `"x"` emits nothing and carries `"xyz"`. -/
theorem last_line_hold_witness :
    process_modify_core "xyz" ⟨none, some ⟨1⟩, some 1, "x", []⟩
      = ({ (⟨none, some ⟨1⟩, some 1, "x", []⟩ : FileStats) with
            unprocessed := "x" ++ str_drop "xyz" 1,
            filehandle := some ⟨max 1 (str_len "xyz")⟩,
            position_in_file := some (Int.ofNat (max 1 (str_len "xyz"))) }, []) :=
  last_line_hold.1 ⟨none, some ⟨1⟩, some 1, "x", []⟩ ⟨1⟩ "xyz" 1 rfl rfl
    (by decide) (by decide)

/-- C3.  On MODIFY of an attached path: when the file size is smaller than
the cursor, the read proceeds exactly as from the reset state (handle
seeked to 0, cursor 0, carry cleared); when it is not smaller, no reset
happens — the read starts at the handle's position with the carry intact. -/
theorem truncation_reset_semantics
    (content : String) (stats : FileStats) (hdl : Handle) (p0 : Int)
    (hh : stats.filehandle = some hdl)
    (hp : stats.position_in_file = some p0) :
    (Int.ofNat (str_len content) < p0 →
        process_modify_core content stats
          = process_modify_core content
              { stats with filehandle := some ⟨0⟩, position_in_file := some 0,
                           unprocessed := "" })
  ∧ (¬ Int.ofNat (str_len content) < p0 →
        process_modify_core content stats
          = (match rindex_newline (str_drop content hdl.pos) with
             | none =>
                 ({ stats with
                     unprocessed := stats.unprocessed ++ str_drop content hdl.pos,
                     filehandle := some ⟨max hdl.pos (str_len content)⟩,
                     position_in_file := some (Int.ofNat (max hdl.pos (str_len content))) },
                  [])
             | some i =>
                 ({ stats with
                     unprocessed := str_drop (str_drop content hdl.pos) (i + 1),
                     filehandle := some ⟨max hdl.pos (str_len content)⟩,
                     position_in_file := some (Int.ofNat (max hdl.pos (str_len content))) },
                  py_splitlines (stats.unprocessed ++ str_take (str_drop content hdl.pos) i)))) := by
  constructor
  · intro hlt
    unfold process_modify_core
    rw [hh, hp]
    dsimp only
    have hc1 : int_lt_opt (Int.ofNat (str_len content)) (some p0) = true :=
      decide_eq_true hlt
    have hc2 : int_lt_opt (Int.ofNat (str_len content)) (some 0) = false := by
      unfold int_lt_opt
      simp only [decide_eq_false_iff_not, not_lt]
      exact Int.ofNat_nonneg _
    simp only [hc1, if_true, hc2, Bool.false_eq_true, if_false]
    cases hrn : rindex_newline (str_drop content 0) <;> rfl
  · intro hnt
    unfold process_modify_core
    rw [hh, hp]
    dsimp only
    have hc : int_lt_opt (Int.ofNat (str_len content)) (some p0) = false :=
      decide_eq_false hnt
    simp only [hc, Bool.false_eq_true, if_false]
    cases hrn : rindex_newline (str_drop content hdl.pos) <;> rfl

/-- C3 (witness): a two-character file with the cursor at 5 is detected as
truncated and read exactly as from the reset state. -/
theorem truncation_reset_semantics_witness :
    Int.ofNat (str_len "ab") < (5 : Int)
  ∧ process_modify_core "ab" ⟨none, some ⟨5⟩, some 5, "zz", []⟩
      = process_modify_core "ab"
          { (⟨none, some ⟨5⟩, some 5, "zz", []⟩ : FileStats) with
              filehandle := some ⟨0⟩, position_in_file := some 0,
              unprocessed := "" } :=
  ⟨by decide,
   (truncation_reset_semantics "ab" ⟨none, some ⟨5⟩, some 5, "zz", []⟩ ⟨5⟩ 5
     rfl rfl).1 (by decide)⟩

theorem int_lt_opt_zero (a : Nat) :
    int_lt_opt (Int.ofNat a) (some 0) = false := by
  unfold int_lt_opt
  simp only [decide_eq_false_iff_not, not_lt]
  exact Int.ofNat_nonneg _

theorem ne_nl_of_not_break (c : Char) (h : isLineBreak c = false) :
    c ≠ '\n' :=
  fun he => absurd (he ▸ h) (by decide)

theorem lastNewlineIdx_append_nl (l : List Char) (h : ∀ c ∈ l, c ≠ '\n') :
    lastNewlineIdx (l ++ ['\n']) = some l.length := by
  induction l with
  | nil => rfl
  | cons c rest ih =>
      simp only [List.cons_append, lastNewlineIdx, List.append_eq,
        ih (fun d hd => h d (List.mem_cons_of_mem _ hd)), List.length_cons]

theorem splitlines_go_no_break (t : List Char) :
    ∀ (acc : List Char) (b : Bool),
      (∀ c ∈ t, isLineBreak c = false) → (acc ≠ [] ∨ t ≠ []) →
      splitlines_go b t acc = [String.mk (acc.reverse ++ t)] := by
  induction t with
  | nil =>
      intro acc b hb hne
      rcases hne with h | h
      · cases acc with
        | nil => exact absurd rfl h
        | cons a as => simp [splitlines_go]
      · exact absurd rfl h
  | cons c t2 ih =>
      intro acc b hb hne
      have hc : isLineBreak c = false := hb c (List.mem_cons_self c t2)
      have hcn : c ≠ '\n' := ne_nl_of_not_break c hc
      have hstep : splitlines_go b (c :: t2) acc
          = splitlines_go false t2 (c :: acc) := by
        simp only [splitlines_go, decide_eq_false hcn, Bool.and_false, hc,
          Bool.false_eq_true, if_false]
      rw [hstep,
        ih (c :: acc) false (fun d hd => hb d (List.mem_cons_of_mem _ hd))
          (Or.inl (List.cons_ne_nil c acc))]
      simp [List.append_assoc]

theorem splitlines_go_append_cr (s : List Char)
    (hb : ∀ c ∈ s, isLineBreak c = false) :
    ∀ (acc t : List Char),
      splitlines_go false (s ++ '\r' :: t) acc
        = String.mk (acc.reverse ++ s) :: splitlines_go true t [] := by
  induction s with
  | nil =>
      intro acc t
      simp only [List.nil_append, List.append_nil]
      rfl
  | cons c s2 ih =>
      intro acc t
      have hc : isLineBreak c = false := hb c (List.mem_cons_self c s2)
      have hcn : c ≠ '\n' := ne_nl_of_not_break c hc
      have hstep : splitlines_go false ((c :: s2) ++ '\r' :: t) acc
          = splitlines_go false (s2 ++ '\r' :: t) (c :: acc) := by
        simp only [List.cons_append, splitlines_go, List.append_eq,
          Bool.false_and, hc, Bool.false_eq_true, if_false]
      rw [hstep, ih (fun d hd => hb d (List.mem_cons_of_mem _ hd)) (c :: acc) t]
      simp [List.append_assoc]

/-- With the handle at offset 0, an empty carry, and a newline present in
the file, the emitted lines are `splitlines` of the text up to the last
newline. -/
theorem process_modify_core_lines_from_zero (content : String)
    (wd : Option Nat) (hs : List Handler) (i : Nat)
    (hr : rindex_newline content = some i) :
    (process_modify_core content ⟨wd, some ⟨0⟩, some 0, "", hs⟩).2
      = py_splitlines ("" ++ str_take content i) := by
  unfold process_modify_core
  dsimp only
  have hc : int_lt_opt (Int.ofNat (str_len content)) (some 0) = false :=
    int_lt_opt_zero _
  simp only [hc, Bool.false_eq_true, if_false]
  have hd0 : str_drop content 0 = content := rfl
  rw [hd0, hr]

/-- C2 (counterexample).  The claim says a lone `'\r'` stays inside the
emitted line and `"\r\n"` yields a line ending in `'\r'`; the code's
`splitlines` (line 294) also breaks at `'\r'`: the file `"a\rb\n"` emits
`["a", "b"]`, not `["a\rb"]`, and `"ab\r\n"` emits `["ab"]`, not
`["ab\r"]`. -/
theorem cr_split_counterexample :
    (process_modify_core "a\rb\n" ⟨none, some ⟨0⟩, some 0, "", []⟩).2
        = ["a", "b"]
  ∧ (process_modify_core "a\rb\n" ⟨none, some ⟨0⟩, some 0, "", []⟩).2
        ≠ ["a\rb"]
  ∧ (process_modify_core "ab\r\n" ⟨none, some ⟨0⟩, some 0, "", []⟩).2
        = ["ab"]
  ∧ (process_modify_core "ab\r\n" ⟨none, some ⟨0⟩, some 0, "", []⟩).2
        ≠ ["ab\r"] :=
  ⟨rfl, by decide, rfl, by decide⟩

/-- C2 (amended).  The carry decision uses the last `'\n'` of the chunk,
but the consumed text is then split by Python's `splitlines`, which breaks
at `'\r'` and at `"\r\n"` as well: for break-free `s` and `t`, the text
`s\r't'` yields the two lines `s` and `t` (a lone `'\r'` splits the line),
and `s\r` yields just `s` (a `"\r\n"`-terminated line is emitted without
the trailing `'\r'`); consequently a read of `s ++ "\r" ++ t ++ "\n"`
from offset 0 emits `[s, t]` and a read of `s ++ "\r\n"` emits `[s]`. -/
theorem splitlines_cr_semantics :
    (∀ s t : List Char,
       (∀ c ∈ s, isLineBreak c = false) → (∀ c ∈ t, isLineBreak c = false) →
       t ≠ [] →
       py_splitlines (String.mk (s ++ '\r' :: t)) = [String.mk s, String.mk t])
  ∧ (∀ s : List Char, (∀ c ∈ s, isLineBreak c = false) →
       py_splitlines (String.mk (s ++ ['\r'])) = [String.mk s])
  ∧ (∀ (wd : Option Nat) (hs : List Handler) (s t : List Char),
       (∀ c ∈ s, isLineBreak c = false) → (∀ c ∈ t, isLineBreak c = false) →
       t ≠ [] →
       (process_modify_core (String.mk (s ++ '\r' :: t ++ ['\n']))
           ⟨wd, some ⟨0⟩, some 0, "", hs⟩).2 = [String.mk s, String.mk t]
     ∧ (process_modify_core (String.mk (s ++ ['\r', '\n']))
           ⟨wd, some ⟨0⟩, some 0, "", hs⟩).2 = [String.mk s]) := by
  have hpy1 : ∀ s t : List Char,
      (∀ c ∈ s, isLineBreak c = false) → (∀ c ∈ t, isLineBreak c = false) →
      t ≠ [] →
      py_splitlines (String.mk (s ++ '\r' :: t))
        = [String.mk s, String.mk t] := by
    intro s t hbs hbt htne
    show splitlines_go false (s ++ '\r' :: t) [] = _
    rw [splitlines_go_append_cr s hbs [] t,
      splitlines_go_no_break t [] true hbt (Or.inr htne)]
    simp
  have hpy2 : ∀ s : List Char, (∀ c ∈ s, isLineBreak c = false) →
      py_splitlines (String.mk (s ++ ['\r'])) = [String.mk s] := by
    intro s hbs
    show splitlines_go false (s ++ '\r' :: []) [] = _
    rw [splitlines_go_append_cr s hbs [] []]
    simp [splitlines_go]
  refine ⟨hpy1, hpy2, ?_⟩
  intro wd hs s t hbs hbt htne
  have hnl1 : ∀ c ∈ s ++ '\r' :: t, c ≠ '\n' := by
    intro c hc
    rcases List.mem_append.mp hc with h | h
    · exact ne_nl_of_not_break c (hbs c h)
    · rcases List.mem_cons.mp h with h | h
      · subst h
        decide
      · exact ne_nl_of_not_break c (hbt c h)
  have hnl2 : ∀ c ∈ s ++ ['\r'], c ≠ '\n' := by
    intro c hc
    rcases List.mem_append.mp hc with h | h
    · exact ne_nl_of_not_break c (hbs c h)
    · rcases List.mem_cons.mp h with h | h
      · subst h
        decide
      · cases h
  constructor
  · have hi : rindex_newline (String.mk (s ++ '\r' :: t ++ ['\n']))
        = some (s ++ '\r' :: t).length := by
      show lastNewlineIdx ((s ++ '\r' :: t) ++ ['\n']) = _
      exact lastNewlineIdx_append_nl _ hnl1
    rw [process_modify_core_lines_from_zero _ wd hs _ hi]
    have htake : str_take (String.mk (s ++ '\r' :: t ++ ['\n']))
        (s ++ '\r' :: t).length = String.mk (s ++ '\r' :: t) := by
      unfold str_take
      congr 1
      show (((s ++ '\r' :: t) ++ ['\n']).take (s ++ '\r' :: t).length) = _
      exact List.take_left _ _
    rw [htake]
    exact hpy1 s t hbs hbt htne
  · have hi2 : rindex_newline (String.mk (s ++ ['\r', '\n']))
        = some (s ++ ['\r']).length := by
      show lastNewlineIdx (s ++ ['\r', '\n']) = _
      rw [show s ++ ['\r', '\n'] = (s ++ ['\r']) ++ ['\n'] from by
        rw [List.append_assoc]
        rfl]
      exact lastNewlineIdx_append_nl _ hnl2
    rw [process_modify_core_lines_from_zero _ wd hs _ hi2]
    have htake2 : str_take (String.mk (s ++ ['\r', '\n']))
        (s ++ ['\r']).length = String.mk (s ++ ['\r']) := by
      unfold str_take
      congr 1
      show ((s ++ ['\r', '\n']).take (s ++ ['\r']).length) = _
      rw [show s ++ ['\r', '\n'] = (s ++ ['\r']) ++ ['\n'] from by
        rw [List.append_assoc]
        rfl]
      exact List.take_left _ _
    rw [htake2]
    exact hpy2 s hbs

/-- C2 (witness): the amended semantics at `s = "a"`, `t = "b"`. -/
theorem splitlines_cr_semantics_witness :
    py_splitlines (String.mk (['a'] ++ '\r' :: ['b']))
        = [String.mk ['a'], String.mk ['b']]
  ∧ py_splitlines (String.mk (['a'] ++ ['\r'])) = [String.mk ['a']]
  ∧ (process_modify_core (String.mk (['a'] ++ '\r' :: ['b'] ++ ['\n']))
        ⟨none, some ⟨0⟩, some 0, "", []⟩).2 = [String.mk ['a'], String.mk ['b']] :=
  ⟨splitlines_cr_semantics.1 ['a'] ['b'] (by decide) (by decide) (by decide),
   splitlines_cr_semantics.2.1 ['a'] (by decide),
   (splitlines_cr_semantics.2.2 none [] ['a'] ['b'] (by decide) (by decide)
     (by decide)).1⟩

end LogfileExporter
